import Mathlib

/-!
Verification of the `lv/zoo/core` configuration-and-loading mechanism of the
neuron-descriptions repository, together with the output-file naming logic of
`src/run_captioner_training.py`.

The module `lv/zoo/core.py` itself is not present under `src/`; only its unit
tests (`src/tests/zoo/core_test.py`) and one caller are.  The definitions below
are therefore modelled from the specification, except where the repository's
own unit tests pin the behaviour down differently, in which case the tests are
followed (each such point is noted on the definition).

Keyword-argument dictionaries and state dictionaries are modelled as
association lists `List (String × V)` in insertion order, matching Python
`dict` semantics for the operations used by the code.
-/

/-- Keyword-argument dictionaries (Python `**kwargs` / `dict`), as association
lists in insertion order. -/
abbrev Kwargs (V : Type) := List (String × V)

/-- Python `d[k]` lookup returning `none` when the key is absent: the value of
the first entry whose key equals `k`. -/
def dictGet {V : Type} (d : List (String × V)) (k : String) : Option V :=
  match d with
  | [] => none
  | p :: rest => if p.1 = k then some p.2 else dictGet rest k

/-- The keys of a dictionary, in order (`list(d.keys())`). -/
def dictKeys {V : Type} (d : List (String × V)) : List String :=
  d.map Prod.fst

/-- Replace the value of every entry of `base` whose key also occurs in `upd`
by the `upd` value, keeping all other entries unchanged.  This is the common
core of Python's `{**defaults, **overrides}` merge (on the `defaults` side) and
of the `load_state_dict` parameter-restoration primitive. -/
def overrideVals {V : Type} (base upd : List (String × V)) : List (String × V) :=
  base.map fun p =>
    match dictGet upd p.1 with
    | some v => (p.1, v)
    | none => p

/-- Modelled from the spec: the merge operation of the `Config` base class,
Python `{**defaults, **overrides}` — defaults keys first (with colliding keys
taking the override value), then the override keys absent from the defaults,
in order. -/
def mergeKwargs {V : Type} (d o : Kwargs V) : Kwargs V :=
  overrideVals d o ++ o.filter fun q => (dictGet d q.1).isNone

theorem dictGet_append {V : Type} (a b : List (String × V)) (k : String) :
    dictGet (a ++ b) k = (dictGet a k).orElse fun _ => dictGet b k := by
  induction a with
  | nil => rfl
  | cons p rest ih =>
    by_cases h : p.1 = k
    · simp [dictGet, h, Option.orElse]
    · simp [dictGet, h, ih]

theorem overrideVals_get {V : Type} (base upd : List (String × V)) (k : String) :
    dictGet (overrideVals base upd) k
      = (dictGet base k).map fun v => (dictGet upd k).getD v := by
  induction base with
  | nil => rfl
  | cons p rest ih =>
    simp only [overrideVals, List.map_cons]
    by_cases h : p.1 = k
    · subst h
      cases hu : dictGet upd p.1 with
      | none => simp [dictGet, hu]
      | some v => simp [dictGet, hu]
    · cases hu : dictGet upd p.1 with
      | none => simpa [dictGet, h, overrideVals] using ih
      | some v => simpa [dictGet, h, overrideVals] using ih

theorem dictGet_filter_isNone {V : Type} (d o : List (String × V)) (k : String) :
    dictGet (o.filter fun q => (dictGet d q.1).isNone) k
      = if (dictGet d k).isNone then dictGet o k else none := by
  induction o with
  | nil => simp [dictGet]
  | cons q rest ih =>
    by_cases h : q.1 = k
    · subst h
      cases hd : dictGet d q.1 with
      | none => simp [List.filter_cons, dictGet, hd, ih]
      | some v => simp [List.filter_cons, dictGet, hd, ih]
    · cases hq : (dictGet d q.1).isNone <;>
        simp [List.filter_cons, dictGet, h, hq, ih]

theorem mergeKwargs_get {V : Type} (d o : Kwargs V) (k : String) :
    dictGet (mergeKwargs d o) k = (dictGet o k).orElse fun _ => dictGet d k := by
  unfold mergeKwargs
  rw [dictGet_append, overrideVals_get, dictGet_filter_isNone]
  cases hd : dictGet d k with
  | none => cases ho : dictGet o k <;> simp [Option.orElse]
  | some v => cases ho : dictGet o k <;> simp [Option.orElse]

theorem dictKeys_append {V : Type} (a b : List (String × V)) :
    dictKeys (a ++ b) = dictKeys a ++ dictKeys b := by
  simp [dictKeys]

theorem overrideVals_keys {V : Type} (base upd : List (String × V)) :
    dictKeys (overrideVals base upd) = dictKeys base := by
  induction base with
  | nil => rfl
  | cons p rest ih =>
    cases hu : dictGet upd p.1 <;>
      simpa [overrideVals, dictKeys, hu] using ih

theorem dictKeys_filter {V : Type} (d o : List (String × V)) :
    dictKeys (o.filter fun q => (dictGet d q.1).isNone)
      = (dictKeys o).filter fun k => (dictGet d k).isNone := by
  induction o with
  | nil => rfl
  | cons q rest ih =>
    cases hq : (dictGet d q.1).isNone <;>
      simpa [List.filter_cons, dictKeys, hq] using ih

theorem mergeKwargs_keys {V : Type} (d o : Kwargs V) :
    dictKeys (mergeKwargs d o)
      = dictKeys d ++ (dictKeys o).filter fun k => (dictGet d k).isNone := by
  unfold mergeKwargs
  rw [dictKeys_append, overrideVals_keys, dictKeys_filter]

theorem mergeKwargs_nil {V : Type} (d : Kwargs V) : mergeKwargs d [] = d := by
  unfold mergeKwargs overrideVals
  simp [dictGet]

theorem dictGet_eq_some_of_mem_keys {V : Type} (d : List (String × V)) (k : String)
    (h : k ∈ dictKeys d) : ∃ v, dictGet d k = some v := by
  induction d with
  | nil => simp [dictKeys] at h
  | cons p rest ih =>
    by_cases hp : p.1 = k
    · exact ⟨p.2, by simp [dictGet, hp]⟩
    · have hmem : k ∈ dictKeys rest := by
        rcases (by simpa [dictKeys] using h : k = p.1 ∨ k ∈ dictKeys rest) with h1 | h1
        · exact absurd h1.symm hp
        · exact h1
      obtain ⟨v, hv⟩ := ih hmem
      exact ⟨v, by simp [dictGet, hp, hv]⟩

theorem mem_keys_of_dictGet_eq_some {V : Type} (d : List (String × V)) (k : String)
    (v : V) (h : dictGet d k = some v) : k ∈ dictKeys d := by
  induction d with
  | nil => simp [dictGet] at h
  | cons p rest ih =>
    by_cases hp : p.1 = k
    · simp [dictKeys, hp.symm]
    · simp only [dictGet, if_neg hp] at h
      exact List.mem_cons_of_mem p.1 (ih h)

/-- Modelled from the spec: the model object produced by a `ModelConfig`
factory (`lv/zoo/core.py` is absent from `src/`).  Per spec section 6, a model
exposes a state dictionary keyed by dotted parameter names; per the unit test
`test_model_config_load` it also exposes the names of its top-level child
modules, which `ModelConfig.load` reports when no layers are configured. -/
structure TorchModel (T : Type) where
  params : List (String × T)
  children : List String

/-- Modelled from the spec: the "restore matching parameters" primitive of the
factory interface (spec section 6) — every parameter whose dotted name occurs
in the given state dictionary is set to the saved value, all other parameters
are left unchanged. -/
def TorchModel.loadStateDict {T : Type} (m : TorchModel T)
    (sd : List (String × T)) : TorchModel T :=
  { m with params := overrideVals m.params sd }

/-- The error raised by `ModelConfig.load`; `fileNotFound` models Python's
`FileNotFoundError` class. -/
inductive LoadError where
  | fileNotFound (msg : String)

/-- Modelled from the spec: `lv.zoo.core.ModelConfig` (absent from `src/`) —
a factory, its declared keyword defaults, an optional list of layer names
(`None` when never configured), and the `load_weights` flag. -/
structure ModelConfig (V T : Type) where
  factory : Kwargs V → TorchModel T
  defaults : Kwargs V
  layers : Option (List String)
  load_weights : Bool

/-- Modelled from the spec: the `ModelConfig` constructor
`ModelConfig(factory, **defaults)` — extra keyword arguments become the stored
defaults; `layers` starts unset and `load_weights` starts true. -/
def ModelConfig.make {V T : Type} (factory : Kwargs V → TorchModel T)
    (defaults : Kwargs V) : ModelConfig V T :=
  { factory := factory, defaults := defaults, layers := none, load_weights := true }

/-- The layer list reported by `ModelConfig.load`: the configured layers when
set, otherwise the constructed model's child-module names (behaviour pinned by
`test_model_config_load`, which builds a config with no layers configured and
receives the model's single child name back). -/
def reportLayers {T : Type} (layers : Option (List String)) (model : TorchModel T) :
    List String :=
  match layers with
  | some ls => ls
  | none => model.children

/-- Modelled from the spec: `ModelConfig.load(path, **overrides)` (absent from
`src/`).  The file system is passed explicitly as a map from path to the state
dictionary stored there (`none` when the path is missing or not a regular
file).  It merges overrides into defaults (override wins), builds the model
with the factory, and, when `load_weights` is set, checks the path and
restores the saved state dictionary into the model.  Where the spec and the
repository's unit tests disagree, the tests are followed: per
`test_model_config_load_overwrite_defaults` the whole saved state dictionary
is restored regardless of `layers` (no prefix filtering), and `layers` only
determines the reported layer list. -/
def ModelConfig.load {V T : Type} (cfg : ModelConfig V T)
    (fs : String → Option (List (String × T))) (path : String)
    (overrides : Kwargs V) : Except LoadError (TorchModel T × List String) :=
  let model := cfg.factory (mergeKwargs cfg.defaults overrides)
  if cfg.load_weights then
    match fs path with
    | none => .error (.fileNotFound ("model path not found: " ++ path))
    | some sd =>
      let restored := model.loadStateDict sd
      .ok (restored, reportLayers cfg.layers restored)
  else
    .ok (model, reportLayers cfg.layers model)

/-- State-passing form of `ModelConfig.load`: the same method body, threading
the `self` object through and returning it alongside the result, so that the
absence of mutation of the Config can be stated and proved. -/
def ModelConfig.loadSt {V T : Type} (cfg : ModelConfig V T)
    (fs : String → Option (List (String × T))) (path : String)
    (overrides : Kwargs V) :
    Except LoadError (TorchModel T × List String) × ModelConfig V T :=
  let self := cfg
  let model := self.factory (mergeKwargs self.defaults overrides)
  if self.load_weights then
    match fs path with
    | none => (.error (.fileNotFound ("model path not found: " ++ path)), self)
    | some sd =>
      let restored := model.loadStateDict sd
      (.ok (restored, reportLayers self.layers restored), self)
  else
    (.ok (model, reportLayers self.layers model), self)

/-- Modelled from the spec: `lv.zoo.core.DatasetConfig` (absent from `src/`) —
a factory taking the data path plus keyword arguments, and the declared
keyword defaults. -/
structure DatasetConfig (V D : Type) where
  factory : String → Kwargs V → D
  defaults : Kwargs V

/-- Modelled from the spec: the `DatasetConfig` constructor
`DatasetConfig(factory, **defaults)` — extra keyword arguments become the
stored defaults. -/
def DatasetConfig.make {V D : Type} (factory : String → Kwargs V → D)
    (defaults : Kwargs V) : DatasetConfig V D :=
  { factory := factory, defaults := defaults }

/-- Modelled from the spec: `DatasetConfig.load(path, **overrides)` — merge
overrides into defaults (override wins), call the factory with the path as
first positional argument and the merged keyword arguments, and return the
constructed dataset directly. -/
def DatasetConfig.load {V D : Type} (cfg : DatasetConfig V D) (path : String)
    (overrides : Kwargs V) : D :=
  cfg.factory path (mergeKwargs cfg.defaults overrides)

/-- Spec step 6's prefix-match criterion on dotted parameter names: layer name
`L` matches parameter keys beginning with `L.` (stated here only to exhibit
that the code does not apply it during restoration). -/
def layerMatches (layer key : String) : Bool :=
  List.isPrefixOf (layer ++ ".").data key.data

/-- Embedded from `src/run_captioner_training.py` lines 69–73: the decoder
output path — the `--out-file` argument when given (`args.out_file` is `None`
exactly when the flag is omitted, since `pathlib.Path` objects are always
truthy), otherwise the generated name
`f'cap+{args.encoder}{"" if args.no_lm else "+lm"}.pth'`. -/
def out_file (out_file_arg : Option String) (encoder : String) (no_lm : Bool) :
    String :=
  match out_file_arg with
  | some f => f
  | none => "cap+" ++ encoder ++ (if no_lm then "" else "+lm") ++ ".pth"

/-- Claim C1: for every Config with defaults `D` and call-time overrides `O`,
the keyword arguments passed to the factory by `load` — which both
`ModelConfig.load` and `DatasetConfig.load` compute as `mergeKwargs D O` — are
exactly `D` with colliding keys replaced by the values from `O`, keys of `D`
not in `O` kept at their default values, and keys of `O` absent from `D`
passed through unchanged. -/
theorem config_merge_law {V : Type} (D O : Kwargs V) :
    (∀ k, dictGet (mergeKwargs D O) k = (dictGet O k).orElse fun _ => dictGet D k)
    ∧ dictKeys (mergeKwargs D O)
        = dictKeys D ++ (dictKeys O).filter fun k => (dictGet D k).isNone :=
  ⟨fun k => mergeKwargs_get D O k, mergeKwargs_keys D O⟩

/-- Claim C7: `DatasetConfig.load(path, **overrides)` merges overrides into
defaults with override precedence, invokes the factory with `path` as first
positional argument followed by the merged keyword arguments, and returns the
constructed dataset object itself (a single value, not a pair). -/
theorem datasetConfig_load_spec {V D : Type} (cfg : DatasetConfig V D)
    (path : String) (ov : Kwargs V) :
    cfg.load path ov = cfg.factory path (mergeKwargs cfg.defaults ov)
    ∧ ∀ k, dictGet (mergeKwargs cfg.defaults ov) k
        = (dictGet ov k).orElse fun _ => dictGet cfg.defaults k :=
  ⟨rfl, fun k => mergeKwargs_get cfg.defaults ov k⟩

/-- Claim C8: `ModelConfig.load` leaves the Config itself unchanged — in the
state-passing form of the method the returned Config is the input Config, all
four fields included, and a second `load` from the post-state behaves exactly
as a `load` from the original Config (call-time overrides are never written
back into the stored defaults). -/
theorem modelConfig_load_frame {V T : Type} (cfg : ModelConfig V T)
    (fs : String → Option (List (String × T))) (path : String)
    (o1 o2 : Kwargs V) :
    (cfg.loadSt fs path o1).2 = cfg
    ∧ ((cfg.loadSt fs path o1).2).factory = cfg.factory
    ∧ ((cfg.loadSt fs path o1).2).defaults = cfg.defaults
    ∧ ((cfg.loadSt fs path o1).2).layers = cfg.layers
    ∧ ((cfg.loadSt fs path o1).2).load_weights = cfg.load_weights
    ∧ (cfg.loadSt fs path o1).1 = cfg.load fs path o1
    ∧ ((cfg.loadSt fs path o1).2).loadSt fs path o2 = cfg.loadSt fs path o2 := by
  have hsnd : (cfg.loadSt fs path o1).2 = cfg := by
    unfold ModelConfig.loadSt
    cases hb : cfg.load_weights
    · simp [hb]
    · cases hf : fs path <;> simp [hb, hf]
  have hfst : (cfg.loadSt fs path o1).1 = cfg.load fs path o1 := by
    unfold ModelConfig.loadSt ModelConfig.load
    cases hb : cfg.load_weights
    · simp [hb]
    · cases hf : fs path <;> simp [hb, hf]
  exact ⟨hsnd, by rw [hsnd], by rw [hsnd], by rw [hsnd], by rw [hsnd], hfst,
    by rw [hsnd]⟩

/-- Claim C9: the `ModelConfig` and `DatasetConfig` constructors take the
default keyword arguments directly as extra keyword parameters after
`factory`; every such keyword becomes a stored default and is forwarded to the
factory on `load` (here shown for a `load` with no call-time overrides, where
the factory receives exactly the constructor's keywords). -/
theorem config_kwargs_become_defaults {V T D : Type}
    (f : Kwargs V → TorchModel T) (g : String → Kwargs V → D)
    (kw : Kwargs V) (path : String) :
    (ModelConfig.make f kw).defaults = kw
    ∧ (ModelConfig.make f kw).layers = none
    ∧ (ModelConfig.make f kw).load_weights = true
    ∧ (DatasetConfig.make g kw).defaults = kw
    ∧ (DatasetConfig.make g kw).load path [] = g path kw
    ∧ mergeKwargs kw ([] : Kwargs V) = kw := by
  refine ⟨rfl, rfl, rfl, rfl, ?_, mergeKwargs_nil kw⟩
  show g path (mergeKwargs kw []) = g path kw
  rw [mergeKwargs_nil]

/-- Claim C10: in the training script, when `--out-file` is omitted the
decoder is saved to `cap+<encoder>+lm.pth`, with the `+lm` segment omitted
exactly when `--no-lm` is passed; when `--out-file` is given, that path is
used unchanged. -/
theorem run_captioner_out_file (enc f : String) (b : Bool) :
    out_file none enc false = "cap+" ++ enc ++ "+lm.pth"
    ∧ out_file none enc true = "cap+" ++ enc ++ ".pth"
    ∧ out_file (some f) enc b = f := by
  refine ⟨?_, ?_, rfl⟩
  · show "cap+" ++ enc ++ "+lm" ++ ".pth" = "cap+" ++ enc ++ "+lm.pth"
    rw [String.append_assoc]
    exact congrArg (fun s => "cap+" ++ enc ++ s) rfl
  · show "cap+" ++ enc ++ "" ++ ".pth" = "cap+" ++ enc ++ ".pth"
    rw [String.append_assoc]
    exact congrArg (fun s => "cap+" ++ enc ++ s) rfl

/-- Concrete factory mirroring the test fixture `Model` of
`src/tests/zoo/core_test.py`: one child module `my-layer` whose two parameters
have the freshly initialized values `0` and `1`. -/
def modelFactoryEx : Kwargs Bool → TorchModel Nat := fun _ =>
  { params := [("my-layer.weight", 0), ("my-layer.bias", 1)],
    children := ["my-layer"] }

/-- Concrete saved state dictionary (values differ from the fresh ones). -/
def sdEx : List (String × Nat) := [("my-layer.weight", 7), ("my-layer.bias", 9)]

/-- Concrete file system holding `sdEx` at every path. -/
def fsEx : String → Option (List (String × Nat)) := fun _ => some sdEx

/-- The model produced by loading `sdEx` into the fresh `modelFactoryEx` model. -/
def mLoadedEx : TorchModel Nat :=
  { params := [("my-layer.weight", 7), ("my-layer.bias", 9)],
    children := ["my-layer"] }

/-- Config with `layers` set to a name matching no parameter key (mirrors
`test_model_config_load_overwrite_defaults` after `layers = ['other-layer']`). -/
def cfgLayersEx : ModelConfig Bool Nat :=
  { factory := modelFactoryEx, defaults := [("flag", true)],
    layers := some ["other-layer"], load_weights := true }

/-- Config with `layers` never configured (the `model_config` test fixture). -/
def cfgNoLayersEx : ModelConfig Bool Nat :=
  ModelConfig.make modelFactoryEx [("flag", true)]

/-- Config with an explicitly empty `layers` list. -/
def cfgEmptyLayersEx : ModelConfig Bool Nat := { cfgLayersEx with layers := some [] }

/-- Config with `load_weights` switched off (mirrors
`test_model_config_load_no_load_weights`). -/
def cfgNoWeightsEx : ModelConfig Bool Nat := { cfgLayersEx with load_weights := false }

/-- Claim C2 counterexample: with `layers = ['other-layer']`, the parameter key
`my-layer.weight` is not prefixed by the named layer, yet `ModelConfig.load`
overwrites it with the saved value `7` instead of keeping the factory value
`0` — restoration is not filtered by `layers` (behaviour pinned by
`test_model_config_load_overwrite_defaults`, which asserts every parameter
matches the saved weights even though `layers` names no parameter). -/
theorem modelConfig_layers_no_filter_cex :
    cfgLayersEx.layers = some ["other-layer"]
    ∧ layerMatches "other-layer" "my-layer.weight" = false
    ∧ cfgLayersEx.load fsEx "weights.pth" [] = .ok (mLoadedEx, ["other-layer"])
    ∧ dictGet (cfgLayersEx.factory (mergeKwargs cfgLayersEx.defaults [])).params
        "my-layer.weight" = some 0
    ∧ dictGet mLoadedEx.params "my-layer.weight" = some 7
    ∧ (some 7 : Option Nat) ≠ some 0 :=
  ⟨rfl, by decide, rfl, rfl, rfl, by decide⟩

/-- Claim C2 (amended): with `load_weights` true and the path present,
`ModelConfig.load` restores the entire saved state dictionary regardless of
`layers`: every parameter key that occurs in the saved dictionary is set to
the saved value and only keys absent from it keep their factory-initialized
values; `layers` affects only the reported layer list. -/
theorem modelConfig_load_restores_all {V T : Type} (cfg : ModelConfig V T)
    (fs : String → Option (List (String × T))) (path : String) (ov : Kwargs V)
    (sd : List (String × T))
    (hw : cfg.load_weights = true) (hfs : fs path = some sd) :
    cfg.load fs path ov
      = .ok ((cfg.factory (mergeKwargs cfg.defaults ov)).loadStateDict sd,
             reportLayers cfg.layers
               ((cfg.factory (mergeKwargs cfg.defaults ov)).loadStateDict sd))
    ∧ ∀ k, dictGet ((cfg.factory (mergeKwargs cfg.defaults ov)).loadStateDict sd).params k
        = (dictGet (cfg.factory (mergeKwargs cfg.defaults ov)).params k).map
            fun v => (dictGet sd k).getD v := by
  constructor
  · unfold ModelConfig.load
    simp [hw, hfs]
  · intro k
    simpa [TorchModel.loadStateDict] using
      overrideVals_get (cfg.factory (mergeKwargs cfg.defaults ov)).params sd k

/-- Witness for C2 (amended) at the concrete `cfgLayersEx` input. -/
theorem modelConfig_load_restores_all_witness :
    cfgLayersEx.load_weights = true
    ∧ fsEx "weights.pth" = some sdEx
    ∧ cfgLayersEx.load fsEx "weights.pth" []
        = .ok ((cfgLayersEx.factory (mergeKwargs cfgLayersEx.defaults [])).loadStateDict sdEx,
               reportLayers cfgLayersEx.layers
                 ((cfgLayersEx.factory (mergeKwargs cfgLayersEx.defaults [])).loadStateDict sdEx))
    ∧ ∀ k, dictGet ((cfgLayersEx.factory (mergeKwargs cfgLayersEx.defaults [])).loadStateDict sdEx).params k
        = (dictGet (cfgLayersEx.factory (mergeKwargs cfgLayersEx.defaults [])).params k).map
            fun v => (dictGet sdEx k).getD v := by
  refine ⟨rfl, rfl, ?_⟩
  have h := modelConfig_load_restores_all cfgLayersEx fsEx "weights.pth" [] sdEx rfl rfl
  exact ⟨h.1, h.2⟩

/-- Claim C3 counterexample: the `model_config` fixture never configures
`layers`, yet `ModelConfig.load` returns `["my-layer"]` — the constructed
model's child-module name — not an empty sequence (behaviour pinned by
`test_model_config_load`, which asserts `tuple(layers) == ('my-layer',)`). -/
theorem modelConfig_layers_report_cex :
    cfgNoLayersEx.layers = none
    ∧ cfgNoLayersEx.load fsEx "weights.pth" [] = .ok (mLoadedEx, ["my-layer"])
    ∧ mLoadedEx.children = ["my-layer"]
    ∧ (["my-layer"] : List String) ≠ [] :=
  ⟨rfl, rfl, rfl, by decide⟩

/-- Claim C3 (amended): the layers component returned by `ModelConfig.load`
equals the `layers` attribute as it stands at the moment `load` is called
whenever that attribute is set; when it is unset, the returned layers are the
constructed model's child-module names. -/
theorem modelConfig_load_layers_report {V T : Type} (cfg : ModelConfig V T)
    (fs : String → Option (List (String × T))) (path : String) (ov : Kwargs V)
    (m : TorchModel T) (ls : List String)
    (h : cfg.load fs path ov = .ok (m, ls)) :
    ls = reportLayers cfg.layers m
    ∧ (∀ l, cfg.layers = some l → ls = l)
    ∧ (cfg.layers = none → ls = m.children) := by
  have hls : ls = reportLayers cfg.layers m := by
    unfold ModelConfig.load at h
    cases hb : cfg.load_weights
    · rw [hb] at h
      simp only [if_neg Bool.false_ne_true, Except.ok.injEq, Prod.mk.injEq] at h
      obtain ⟨hm, hl⟩ := h
      rw [← hm, hl]
    · rw [hb] at h
      cases hf : fs path with
      | none =>
        rw [hf] at h
        simp at h
      | some sd =>
        rw [hf] at h
        simp only [if_pos, Except.ok.injEq, Prod.mk.injEq] at h
        obtain ⟨hm, hl⟩ := h
        rw [← hm, hl]
  refine ⟨hls, ?_, ?_⟩
  · intro l hl
    rw [hls, hl]
    rfl
  · intro hl
    rw [hls, hl]
    rfl

/-- Witness for C3 (amended) at the concrete `cfgNoLayersEx` input. -/
theorem modelConfig_load_layers_report_witness :
    ["my-layer"] = reportLayers cfgNoLayersEx.layers mLoadedEx
    ∧ (cfgNoLayersEx.layers = none → ["my-layer"] = mLoadedEx.children) := by
  have h := modelConfig_load_layers_report cfgNoLayersEx fsEx "weights.pth" []
    mLoadedEx ["my-layer"] rfl
  exact ⟨h.1, h.2.2⟩

/-- Claim C4: when the full state dictionary of a model of the same shape was
saved (key sets agree), `ModelConfig.load` with `load_weights` true and an
empty `layers` list yields a model whose state dictionary has the same key set
as the saved one and whose value at every saved key equals the saved value
(exact equality in this model, hence within any tolerance). -/
theorem modelConfig_load_roundtrip {V T : Type} (cfg : ModelConfig V T)
    (fs : String → Option (List (String × T))) (path : String) (ov : Kwargs V)
    (sd : List (String × T))
    (hw : cfg.load_weights = true)
    (hl : cfg.layers = some [])
    (hfs : fs path = some sd)
    (hkeys : dictKeys (cfg.factory (mergeKwargs cfg.defaults ov)).params = dictKeys sd) :
    cfg.load fs path ov
      = .ok ((cfg.factory (mergeKwargs cfg.defaults ov)).loadStateDict sd, [])
    ∧ dictKeys ((cfg.factory (mergeKwargs cfg.defaults ov)).loadStateDict sd).params
        = dictKeys sd
    ∧ ∀ k v, dictGet sd k = some v →
        dictGet ((cfg.factory (mergeKwargs cfg.defaults ov)).loadStateDict sd).params k
          = some v := by
  refine ⟨?_, ?_, ?_⟩
  · unfold ModelConfig.load
    simp [hw, hfs, hl, reportLayers]
  · show dictKeys (overrideVals (cfg.factory (mergeKwargs cfg.defaults ov)).params sd)
        = dictKeys sd
    rw [overrideVals_keys]
    exact hkeys
  · intro k v hv
    have hk : k ∈ dictKeys sd := mem_keys_of_dictGet_eq_some sd k v hv
    have hk2 : k ∈ dictKeys (cfg.factory (mergeKwargs cfg.defaults ov)).params := by
      rw [hkeys]
      exact hk
    obtain ⟨w, hw2⟩ := dictGet_eq_some_of_mem_keys _ k hk2
    show dictGet (overrideVals (cfg.factory (mergeKwargs cfg.defaults ov)).params sd) k
        = some v
    rw [overrideVals_get, hw2, hv]
    rfl

/-- Witness for C4 at the concrete `cfgEmptyLayersEx` input. -/
theorem modelConfig_load_roundtrip_witness :
    cfgEmptyLayersEx.load fsEx "weights.pth" [] = .ok (mLoadedEx, [])
    ∧ dictKeys mLoadedEx.params = dictKeys sdEx := by
  have h := modelConfig_load_roundtrip cfgEmptyLayersEx fsEx "weights.pth" [] sdEx
    rfl rfl rfl rfl
  exact ⟨h.1, h.2.1⟩

/-- Claim C5: with `load_weights` true and a path that does not exist (or is
not a regular file — both modelled by the file system returning `none`),
`ModelConfig.load` fails with a `FileNotFoundError`-class error whose message
identifies the missing path with the text `model path not found`, independent
of any file contents. -/
theorem modelConfig_load_not_found {V T : Type} (cfg : ModelConfig V T)
    (fs : String → Option (List (String × T))) (path : String) (ov : Kwargs V)
    (hw : cfg.load_weights = true) (hfs : fs path = none) :
    cfg.load fs path ov
      = .error (.fileNotFound ("model path not found: " ++ path)) := by
  unfold ModelConfig.load
  simp [hw, hfs]

/-- Witness for C5 at a concrete missing path. -/
theorem modelConfig_load_not_found_witness :
    cfgLayersEx.load (fun _ => none) "missing.pth" []
      = .error (.fileNotFound ("model path not found: " ++ "missing.pth")) :=
  modelConfig_load_not_found cfgLayersEx (fun _ => none) "missing.pth" [] rfl rfl

/-- Claim C6: with `load_weights` false, `ModelConfig.load` skips restoration
entirely — the returned model is exactly the factory's freshly constructed
model (every parameter keeps its factory-initialized value) — and the result
is independent of the file system (no file access occurs). -/
theorem modelConfig_no_load_weights {V T : Type} (cfg : ModelConfig V T)
    (fs fs2 : String → Option (List (String × T))) (path : String) (ov : Kwargs V)
    (hw : cfg.load_weights = false) :
    cfg.load fs path ov
      = .ok (cfg.factory (mergeKwargs cfg.defaults ov),
             reportLayers cfg.layers (cfg.factory (mergeKwargs cfg.defaults ov)))
    ∧ cfg.load fs path ov = cfg.load fs2 path ov := by
  have h : ∀ g : String → Option (List (String × T)),
      cfg.load g path ov
        = .ok (cfg.factory (mergeKwargs cfg.defaults ov),
               reportLayers cfg.layers (cfg.factory (mergeKwargs cfg.defaults ov))) := by
    intro g
    unfold ModelConfig.load
    simp [hw]
  exact ⟨h fs, (h fs).trans (h fs2).symm⟩

/-- Witness for C6 at the concrete `cfgNoWeightsEx` input, against both a file
system holding saved weights and one holding nothing. -/
theorem modelConfig_no_load_weights_witness :
    cfgNoWeightsEx.load fsEx "weights.pth" []
      = .ok (cfgNoWeightsEx.factory (mergeKwargs cfgNoWeightsEx.defaults []),
             reportLayers cfgNoWeightsEx.layers
               (cfgNoWeightsEx.factory (mergeKwargs cfgNoWeightsEx.defaults [])))
    ∧ cfgNoWeightsEx.load fsEx "weights.pth" []
        = cfgNoWeightsEx.load (fun _ => none) "weights.pth" [] :=
  modelConfig_no_load_weights cfgNoWeightsEx fsEx (fun _ => none) "weights.pth" [] rfl
